import Mathlib

/-!
Shallow embedding of the RCON web relay (`src/app/main.js`).

The program keeps a module-level RCON client (`rcon`) and a readiness flag
(`rconReady`).  `connectRcon` installs listeners on a fresh client object:
`auth` sets the flag, `end` clears it and schedules a reconnect via
`setTimeout(connectRcon, 5000)`, `error` and `response` only log.
`sendGamemode(username, callback)` rejects synchronously when the flag is
down, otherwise registers one-shot `response`/`error` listeners, sends
`gamemode survival <username>`, and arms a 5000 ms fallback timeout that,
if the command is still unhandled, removes the listeners and calls the
callback with a timeout error.  The HTTP handler for `POST /set` validates
the password and the username (`^[A-Za-z0-9_]{3,16}$` on the trimmed value)
before invoking `sendGamemode`.

The embedding models this as a state machine driven by timestamped
external events (transport events and `sendGamemode` calls).  Timers are
kept as a queue of due times; before an external event is dispatched all
timers due at or before its timestamp fire, mirroring the Node.js event
loop.  Every `sendGamemode` call is given a fresh numeric id, and every
invocation of its completion callback is appended to `log`, so exactness
and idempotence of resolution are visible as properties of `log`.
-/

/-- Outcome delivered to a `sendGamemode` callback invocation:
`ok resp` is `callback(null, resp)`; the error constructors correspond to
`new Error('RCON not connected')`, a transport `error` event payload,
the exception thrown by `rcon.send`, and `new Error('RCON command timeout')`. -/
inductive CbResult where
  | ok (resp : String)
  | errNotConnected
  | errTransport (e : String)
  | errSendFail
  | errTimeout
deriving DecidableEq, Repr

/-- What a pending `setTimeout` will do when it fires: the per-command
fallback timeout from `sendGamemode`, or the reconnect scheduled by the
`end` handler (`setTimeout(connectRcon, 5000)`). -/
inductive TimerKind where
  | cmdTimeout (i : Nat)
  | backoff
deriving DecidableEq, Repr

/-- A scheduled `setTimeout`: its absolute due time (ms) and its action. -/
structure Timer where
  due : Nat
  kind : TimerKind
deriving DecidableEq, Repr

/-- External events driving the program: the rcon client's `auth`,
`response`, `error` and `end` events, a `sendGamemode` invocation
(`sendOk = false` models `rcon.send` throwing), and a pure passage-of-time
tick (the event loop reaching a timer deadline). -/
inductive Ev where
  | auth
  | response (m : String)
  | rerror (e : String)
  | closed
  | exec (username : String) (sendOk : Bool)
  | tick
deriving DecidableEq, Repr

/-- Global program state.
`cmds` maps each dispatched command id to its `handled` flag;
`respListeners` / `errListeners` are the one-shot listeners currently
registered on the current rcon object (ids, in registration order);
`sent` records the strings passed to `rcon.send`;
`log` records every callback invocation `(call id, result)` in order;
`connectCount` counts invocations of `connectRcon`. -/
structure Sys where
  now : Nat
  rconReady : Bool
  nextId : Nat
  cmds : List (Nat × Bool)
  respListeners : List Nat
  errListeners : List Nat
  timers : List Timer
  sent : List String
  log : List (Nat × CbResult)
  connectCount : Nat
deriving DecidableEq, Repr

/-- `connectRcon`: replaces the client with a fresh object (so the one-shot
listeners of in-flight commands are orphaned) and connects again.  It does
not touch `rconReady`, the pending `handled` flags, or scheduled timers. -/
def connectRcon (s : Sys) : Sys :=
  { s with respListeners := [], errListeners := [], connectCount := s.connectCount + 1 }

/-- State at process start: `connectRcon()` has run once. -/
def initState : Sys :=
  connectRcon { now := 0, rconReady := false, nextId := 0, cmds := [],
                respListeners := [], errListeners := [], timers := [],
                sent := [], log := [], connectCount := 0 }

/-- Set the `handled` closure variable of command `i` to `true`. -/
def setHandled (l : List (Nat × Bool)) (i : Nat) : List (Nat × Bool) :=
  l.map (fun p => if p.1 = i then (p.1, true) else p)

/-- Deliver a `response` event to the given one-shot listeners in
registration order: each `onResponse` checks `handled`, sets it, and calls
`callback(null, resp)`. -/
def emitResponse (m : String) : List Nat → Sys → Sys
  | [], s => s
  | i :: rest, s =>
    match s.cmds.lookup i with
    | some false =>
        emitResponse m rest
          { s with cmds := setHandled s.cmds i, log := s.log ++ [(i, .ok m)] }
    | _ => emitResponse m rest s

/-- Deliver an `error` event to the given one-shot listeners in
registration order: each `onError` checks `handled`, sets it, and calls
`callback(err)`. -/
def emitError (e : String) : List Nat → Sys → Sys
  | [], s => s
  | i :: rest, s =>
    match s.cmds.lookup i with
    | some false =>
        emitError e rest
          { s with cmds := setHandled s.cmds i, log := s.log ++ [(i, .errTransport e)] }
    | _ => emitError e rest s

/-- `sendGamemode(username, callback)`.  When `rconReady` is false the
callback fires synchronously with the not-connected error and nothing else
happens.  Otherwise a fresh command id is allocated with `handled = false`,
one-shot `response` and `error` listeners are registered, the command
string is sent (on a send exception the listeners are removed and the
callback fires with the exception — note `handled` is not set there), and
in either case the 5000 ms fallback timeout is armed. -/
def sendGamemode (username : String) (sendOk : Bool) (s : Sys) : Sys :=
  if s.rconReady = false then
    { s with nextId := s.nextId + 1, log := s.log ++ [(s.nextId, .errNotConnected)] }
  else
    let i := s.nextId
    let cmd := "gamemode survival " ++ username
    let s1 := { s with nextId := i + 1,
                       cmds := s.cmds ++ [(i, false)],
                       respListeners := s.respListeners ++ [i],
                       errListeners := s.errListeners ++ [i] }
    let s2 :=
      if sendOk then { s1 with sent := s1.sent ++ [cmd] }
      else { s1 with respListeners := s1.respListeners.filter (fun j => j != i),
                     errListeners := s1.errListeners.filter (fun j => j != i),
                     log := s1.log ++ [(i, .errSendFail)] }
    { s2 with timers := s2.timers ++ [⟨s2.now + 5000, .cmdTimeout i⟩] }

/-- Run one due timer.  The per-command fallback timeout checks `handled`;
if the command is still unhandled it sets the flag, removes both one-shot
listeners, and calls the callback with the timeout error.  A backoff timer
runs `connectRcon`. -/
def fireTimer (k : TimerKind) (s : Sys) : Sys :=
  match k with
  | .backoff => connectRcon s
  | .cmdTimeout i =>
    match s.cmds.lookup i with
    | some false =>
        { s with cmds := setHandled s.cmds i,
                 respListeners := s.respListeners.filter (fun j => j != i),
                 errListeners := s.errListeners.filter (fun j => j != i),
                 log := s.log ++ [(i, .errTimeout)] }
    | _ => s

/-- Fire, in order, every queued timer due at or before time `t`; the
queue is due-sorted along any run because due times are `schedule + 5000`
with nondecreasing schedule times. -/
def runTimersAux (t : Nat) : List Timer → Sys → Sys
  | [], s => { s with timers := [] }
  | tm :: rest, s =>
    if tm.due ≤ t then runTimersAux t rest (fireTimer tm.kind s)
    else { s with timers := tm :: rest }

/-- Advance the event loop to time `t`, firing all timers due by then. -/
def runTimersUpTo (t : Nat) (s : Sys) : Sys :=
  runTimersAux t s.timers s

/-- Dispatch one external event to its handler from `connectRcon` /
`sendGamemode`: `auth` sets the readiness flag; `response` and `error` run
the one-shot listeners (the permanent logging listeners have no state
effect); `end` clears the flag and schedules the reconnect timer;
`exec` is a `sendGamemode` call; `tick` is pure passage of time. -/
def handleEvent (e : Ev) (s : Sys) : Sys :=
  match e with
  | .auth => { s with rconReady := true }
  | .response m => emitResponse m s.respListeners { s with respListeners := [] }
  | .rerror e => emitError e s.errListeners { s with errListeners := [] }
  | .closed => { s with rconReady := false,
                        timers := s.timers ++ [⟨s.now + 5000, .backoff⟩] }
  | .exec u ok => sendGamemode u ok s
  | .tick => s

/-- Process one timestamped external event: advance the clock (firing due
timers first, as the event loop does), then dispatch the event. -/
def step (s : Sys) (ev : Nat × Ev) : Sys :=
  handleEvent ev.2 (runTimersUpTo ev.1 { s with now := ev.1 })

/-- Run a timestamped trace of external events. -/
def run (s : Sys) : List (Nat × Ev) → Sys
  | [] => s
  | ev :: rest => run (step s ev) rest

/-- Command `i` has been dispatched but its callback has never fired. -/
def isPending (s : Sys) (i : Nat) : Bool :=
  !(s.log.any (fun q => q.1 == i))

/-- Number of dispatched-and-unresolved (pending) commands. -/
def pendingCount (s : Sys) : Nat :=
  s.cmds.countP (fun p => isPending s p.1)

/-- Is this event a `sendGamemode` call? -/
def isExec : Ev → Bool
  | .exec _ _ => true
  | _ => false

/-- A trace is serialized for state `s` when every `sendGamemode` call in
it occurs at an instant with no pending command (the upstream-serialization
precondition the spec imposes on callers). -/
def serialized (s : Sys) : List (Nat × Ev) → Bool
  | [] => true
  | ev :: rest =>
    (!(isExec ev.2) || pendingCount (runTimersUpTo ev.1 { s with now := ev.1 }) == 0)
      && serialized (step s ev) rest

/-- JS regex character class `[A-Za-z0-9_]`. -/
def isNameChar (c : Char) : Bool :=
  c.isUpper || c.isLower || c.isDigit || c == '_'

/-- JS regex test `^[A-Za-z0-9_]{3,16}$`. -/
def validUsername (u : String) : Bool :=
  3 ≤ u.length && u.length ≤ 16 && u.data.all isNameChar

/-- Outcome of the `POST /set` request handler, up to the point where it
either responds with an error page or invokes `sendGamemode`. -/
inductive PostResult where
  | notConfigured
  | badPassword
  | badUsername
  | notReady
  | send (username : String)
deriving DecidableEq, Repr

/-- JS `String.prototype.trim`: strip whitespace from both ends. -/
def jsTrim (s : String) : String :=
  ⟨(((s.data.dropWhile Char.isWhitespace).reverse.dropWhile Char.isWhitespace).reverse)⟩

/-- The `POST /set` handler: trims the submitted username, then checks the
configured password, the submitted password, the username format, and
readiness, in the source's order; only then does it call `sendGamemode`
with the trimmed username. -/
def handleSetRequest (authPw : String) (ready : Bool) (rawUser pw : String) : PostResult :=
  let username := jsTrim rawUser
  if authPw = "" then .notConfigured
  else if pw ≠ authPw then .badPassword
  else if ¬ (validUsername username = true) then .badUsername
  else if ready = false then .notReady
  else .send username


/-! ### Helper lemmas: what each transition preserves -/

/-- `s'` extends `s`: same dispatched command ids, and the callback log of
`s` is an initial segment of that of `s'`. -/
def SysExt (s s' : Sys) : Prop :=
  s'.cmds.map Prod.fst = s.cmds.map Prod.fst ∧ ∃ l, s'.log = s.log ++ l

theorem ext_refl (s : Sys) : SysExt s s :=
  ⟨rfl, [], by simp⟩

theorem ext_trans {s t u : Sys} (h1 : SysExt s t) (h2 : SysExt t u) : SysExt s u := by
  obtain ⟨hk1, l1, hl1⟩ := h1
  obtain ⟨hk2, l2, hl2⟩ := h2
  exact ⟨hk2.trans hk1, l1 ++ l2, by simp [hl2, hl1]⟩

theorem setHandled_keys (l : List (Nat × Bool)) (i : Nat) :
    (setHandled l i).map Prod.fst = l.map Prod.fst := by
  induction l with
  | nil => rfl
  | cons p rest ih =>
    by_cases h : p.1 = i <;> simp [setHandled, h] at ih ⊢ <;> exact ih

theorem emitResponse_ext (m : String) (L : List Nat) (s : Sys) :
    SysExt s (emitResponse m L s) := by
  induction L generalizing s with
  | nil => exact ext_refl s
  | cons i rest ih =>
    show SysExt s (emitResponse m (i :: rest) s)
    unfold emitResponse
    cases h : s.cmds.lookup i with
    | none => exact ih s
    | some b =>
      cases b with
      | false =>
        refine ext_trans ?_ (ih _)
        exact ⟨setHandled_keys s.cmds i, [(i, .ok m)], rfl⟩
      | true => exact ih s

theorem emitError_ext (e : String) (L : List Nat) (s : Sys) :
    SysExt s (emitError e L s) := by
  induction L generalizing s with
  | nil => exact ext_refl s
  | cons i rest ih =>
    show SysExt s (emitError e (i :: rest) s)
    unfold emitError
    cases h : s.cmds.lookup i with
    | none => exact ih s
    | some b =>
      cases b with
      | false =>
        refine ext_trans ?_ (ih _)
        exact ⟨setHandled_keys s.cmds i, [(i, .errTransport e)], rfl⟩
      | true => exact ih s

theorem fireTimer_ext (k : TimerKind) (s : Sys) : SysExt s (fireTimer k s) := by
  cases k with
  | backoff => exact ⟨rfl, [], by simp [fireTimer, connectRcon]⟩
  | cmdTimeout i =>
    cases h : s.cmds.lookup i with
    | none =>
      have he : fireTimer (.cmdTimeout i) s = s := by simp [fireTimer, h]
      rw [he]; exact ext_refl s
    | some b =>
      cases b with
      | false =>
        have hc : (fireTimer (.cmdTimeout i) s).cmds = setHandled s.cmds i := by
          simp [fireTimer, h]
        have hl : (fireTimer (.cmdTimeout i) s).log = s.log ++ [(i, .errTimeout)] := by
          simp [fireTimer, h]
        exact ⟨hc ▸ setHandled_keys s.cmds i, [(i, .errTimeout)], hl⟩
      | true =>
        have he : fireTimer (.cmdTimeout i) s = s := by simp [fireTimer, h]
        rw [he]; exact ext_refl s

theorem runTimersAux_ext (t : Nat) (l : List Timer) (s : Sys) :
    SysExt s (runTimersAux t l s) := by
  induction l generalizing s with
  | nil => refine ⟨?_, [], ?_⟩ <;> simp [runTimersAux]
  | cons tm rest ih =>
    unfold runTimersAux
    by_cases h : tm.due ≤ t
    · simp only [h, if_true]
      exact ext_trans (fireTimer_ext tm.kind s) (ih _)
    · simp only [h, if_false]
      exact ⟨rfl, [], by simp⟩

theorem runTimersUpTo_ext (t : Nat) (s : Sys) : SysExt s (runTimersUpTo t s) :=
  runTimersAux_ext t s.timers s

theorem isPending_of_ext {s s' : Sys} (h : SysExt s s') (i : Nat) :
    isPending s' i = true → isPending s i = true := by
  obtain ⟨-, l, hl⟩ := h
  simp only [isPending, hl, List.any_append, Bool.not_eq_true', Bool.or_eq_false_iff]
  exact fun hp => hp.1

theorem pendingCount_le_of_ext {s s' : Sys} (h : SysExt s s') :
    pendingCount s' ≤ pendingCount s := by
  have hk := h.1
  have e1 : pendingCount s' = (s'.cmds.map Prod.fst).countP (isPending s') := by
    simp only [pendingCount, List.countP_map]; rfl
  have e2 : pendingCount s = (s.cmds.map Prod.fst).countP (isPending s) := by
    simp only [pendingCount, List.countP_map]; rfl
  rw [e1, e2, hk]
  exact List.countP_mono_left (fun a _ ha => isPending_of_ext h a ha)

theorem isPending_of_log_append {s s' : Sys} (l : List (Nat × CbResult))
    (hl : s'.log = s.log ++ l) (i : Nat) :
    isPending s' i = true → isPending s i = true := by
  simp only [isPending, hl, List.any_append, Bool.not_eq_true', Bool.or_eq_false_iff]
  exact fun hp => hp.1

theorem sendGamemode_notReady (u : String) (ok : Bool) (s : Sys)
    (hr : s.rconReady = false) :
    sendGamemode u ok s
      = { s with nextId := s.nextId + 1,
                 log := s.log ++ [(s.nextId, .errNotConnected)] } := by
  simp [sendGamemode, hr]

theorem pendingCount_now (s : Sys) (t : Nat) :
    pendingCount { s with now := t } = pendingCount s := rfl

theorem sendGamemode_pending_le (u : String) (ok : Bool) (s : Sys)
    (h0 : pendingCount s = 0) : pendingCount (sendGamemode u ok s) ≤ 1 := by
  by_cases hr : s.rconReady = false
  · have hx : SysExt s (sendGamemode u ok s) := by
      rw [sendGamemode_notReady u ok s hr]
      exact ⟨rfl, [(s.nextId, .errNotConnected)], rfl⟩
    have := pendingCount_le_of_ext hx
    omega
  · have hc : (sendGamemode u ok s).cmds = s.cmds ++ [(s.nextId, false)] := by
      cases ok <;> simp [sendGamemode, hr]
    have hl : ∃ l, (sendGamemode u ok s).log = s.log ++ l := by
      cases ok
      · exact ⟨[(s.nextId, .errSendFail)], by simp [sendGamemode, hr]⟩
      · exact ⟨[], by simp [sendGamemode, hr]⟩
    obtain ⟨l, hl⟩ := hl
    have hmono : ∀ a ∈ s.cmds, (fun p => isPending (sendGamemode u ok s) p.1) a →
        (fun p => isPending s p.1) a :=
      fun a _ ha => isPending_of_log_append l hl a.1 ha
    have h1 := List.countP_mono_left hmono
    have h2 : [(s.nextId, false)].countP
        (fun p => isPending (sendGamemode u ok s) p.1) ≤ 1 := by
      simpa using List.countP_le_length (fun p => isPending (sendGamemode u ok s) p.1)
        (l := [(s.nextId, false)])
    have hstep : pendingCount (sendGamemode u ok s)
        = s.cmds.countP (fun p => isPending (sendGamemode u ok s) p.1)
          + [(s.nextId, false)].countP (fun p => isPending (sendGamemode u ok s) p.1) := by
      rw [pendingCount, hc]; exact List.countP_append _ _ _
    have hp0 : s.cmds.countP (fun p => isPending s p.1) = 0 := h0
    omega

theorem pendingCount_step_le (s : Sys) (t : Nat) (e : Ev) (hne : isExec e = false) :
    pendingCount (step s (t, e)) ≤ pendingCount s := by
  have hpre : pendingCount (runTimersUpTo t { s with now := t }) ≤ pendingCount s := by
    have := pendingCount_le_of_ext (runTimersUpTo_ext t { s with now := t })
    rw [pendingCount_now] at this
    exact this
  cases e with
  | auth =>
    refine le_trans (pendingCount_le_of_ext ?_) hpre
    exact ⟨rfl, [], by simp [step, handleEvent]⟩
  | response m =>
    refine le_trans (pendingCount_le_of_ext ?_) hpre
    refine ext_trans (s := runTimersUpTo t { s with now := t }) ⟨rfl, [], by simp⟩ ?_
    exact emitResponse_ext m _ _
  | rerror e' =>
    refine le_trans (pendingCount_le_of_ext ?_) hpre
    refine ext_trans (s := runTimersUpTo t { s with now := t }) ⟨rfl, [], by simp⟩ ?_
    exact emitError_ext e' _ _
  | closed =>
    refine le_trans (pendingCount_le_of_ext ?_) hpre
    exact ⟨rfl, [], by simp [step, handleEvent]⟩
  | exec u ok => simp [isExec] at hne
  | tick => exact hpre

theorem serialized_pending_le (tr : List (Nat × Ev)) :
    ∀ s : Sys, pendingCount s ≤ 1 → serialized s tr = true →
      pendingCount (run s tr) ≤ 1 := by
  induction tr with
  | nil => exact fun s h _ => h
  | cons ev rest ih =>
    intro s h hs
    obtain ⟨t, e⟩ := ev
    simp only [serialized, Bool.and_eq_true] at hs
    obtain ⟨h1, h2⟩ := hs
    refine ih (step s (t, e)) ?_ h2
    by_cases he : isExec e = true
    · cases e with
      | exec u ok =>
        have h0 : pendingCount (runTimersUpTo t { s with now := t }) = 0 := by
          simp only [isExec, Bool.not_true, Bool.false_or, beq_iff_eq] at h1
          exact h1
        have hst : step s (t, .exec u ok)
            = sendGamemode u ok (runTimersUpTo t { s with now := t }) := rfl
        rw [hst]
        exact sendGamemode_pending_le u ok _ h0
      | auth => simp [isExec] at he
      | response m => simp [isExec] at he
      | rerror e' => simp [isExec] at he
      | closed => simp [isExec] at he
      | tick => simp [isExec] at he
    · exact le_trans (pendingCount_step_le s t e (by simpa using he)) h

/-! ### Claim theorems -/

/-- C1 (counterexample): with the authentication flag set and one command
already in flight, a second `sendGamemode` call is accepted, so two
Pending Commands exist simultaneously — the claim as stated, quantified
over all sequences of execute calls, is false. -/
theorem C1_two_pending_counterexample :
    pendingCount (run initState
      [(0, .auth), (0, .exec "abc" true), (0, .exec "xyz" true)]) = 2 := by
  decide

/-- C1 (amended): provided `sendGamemode` calls are serialized — each one
occurs at an instant with no pending command, the upstream precondition the
spec imposes on callers — every reachable state of any run from startup has
at most one Pending Command. -/
theorem C1_at_most_one_pending_of_serialized (tr : List (Nat × Ev))
    (h : serialized initState tr = true) :
    pendingCount (run initState tr) ≤ 1 :=
  serialized_pending_le tr initState (by decide) h

theorem C1_at_most_one_pending_witness :
    serialized initState
      [(0, .auth), (0, .exec "abc" true), (0, .response "done"),
       (6000, .exec "xyz" true)] = true
    ∧ pendingCount (run initState
      [(0, .auth), (0, .exec "abc" true), (0, .response "done"),
       (6000, .exec "xyz" true)]) ≤ 1 :=
  ⟨by decide, C1_at_most_one_pending_of_serialized _ (by decide)⟩

/-- C2 (counterexample): a `sendGamemode` call made while another command
is outstanding (flag set) is not rejected with the not-connected error —
no callback fires at all at call time — and it is not side-effect free: it
registers a second pair of one-shot listeners and sends a second command. -/
theorem C2_no_pending_rejection_counterexample :
    (run initState [(0, .auth), (0, .exec "abc" true), (0, .exec "xyz" true)]).log = []
    ∧ (run initState
        [(0, .auth), (0, .exec "abc" true), (0, .exec "xyz" true)]).respListeners = [0, 1]
    ∧ (run initState
        [(0, .auth), (0, .exec "abc" true), (0, .exec "xyz" true)]).sent
      = ["gamemode survival abc", "gamemode survival xyz"] := by
  decide

/-- C2 (amended): `sendGamemode` called while the authentication flag is
not set resolves synchronously with the not-connected error and has no
side effects — no listener registered, nothing sent, no timer armed, no
command record created; only the existing-pending-command half of the
claim's guard is absent from the code. -/
theorem C2_not_ready_rejection (s : Sys) (u : String) (ok : Bool)
    (hr : s.rconReady = false) :
    sendGamemode u ok s
      = { s with nextId := s.nextId + 1,
                 log := s.log ++ [(s.nextId, .errNotConnected)] } :=
  sendGamemode_notReady u ok s hr

theorem C2_not_ready_rejection_witness :
    initState.rconReady = false
    ∧ sendGamemode "abc" true initState
      = { initState with nextId := initState.nextId + 1,
                         log := initState.log ++ [(initState.nextId, .errNotConnected)] } :=
  ⟨by decide, C2_not_ready_rejection initState "abc" true (by decide)⟩

/-- C3 (code bug): the claim — exactly one resolution per dispatched
command, guarded idempotently — is what the `handled` flag is clearly for,
but the `catch` branch of `sendGamemode` calls the callback without setting
`handled`, so after a send failure the fallback timeout fires the callback
a second time 5000 ms later: the completion callback of command 0 is
invoked twice. -/
theorem C3_double_resolution_on_send_failure :
    (run initState [(0, .auth), (0, .exec "abc" false), (5000, .tick)]).log
      = [(0, .errSendFail), (0, .errTimeout)] := by
  decide

theorem mem_log_of_ext {s s' : Sys} (h : SysExt s s') {q : Nat × CbResult}
    (hq : q ∈ s.log) : q ∈ s'.log := by
  obtain ⟨-, l, hl⟩ := h
  rw [hl]
  exact List.mem_append_left _ hq

theorem lookup_cons_pair (k i : Nat) (v : Bool) (rest : List (Nat × Bool)) :
    ((k, v) :: rest).lookup i = if i = k then some v else rest.lookup i := by
  by_cases h : i = k
  · simp [List.lookup, h]
  · have hb : (i == k) = false := beq_eq_false_iff_ne.mpr h
    simp [List.lookup, hb, h]

theorem lookup_setHandled_ne (l : List (Nat × Bool)) (i j : Nat) (h : ¬ i = j) :
    (setHandled l j).lookup i = l.lookup i := by
  induction l with
  | nil => rfl
  | cons p rest ih =>
    obtain ⟨k, v⟩ := p
    by_cases hk : k = j
    · subst hk
      have h1 : setHandled ((k, v) :: rest) k = (k, true) :: setHandled rest k := by
        simp [setHandled]
      rw [h1, lookup_cons_pair, lookup_cons_pair, if_neg h, if_neg h]
      exact ih
    · have h1 : setHandled ((k, v) :: rest) j = (k, v) :: setHandled rest j := by
        simp [setHandled, hk]
      rw [h1, lookup_cons_pair, lookup_cons_pair]
      by_cases hik : i = k
      · rw [if_pos hik, if_pos hik]
      · rw [if_neg hik, if_neg hik]
        exact ih

theorem emitError_preserves (e : String) (L : List Nat) : ∀ s : Sys,
    (emitError e L s).rconReady = s.rconReady
    ∧ (emitError e L s).timers = s.timers
    ∧ (emitError e L s).connectCount = s.connectCount
    ∧ (emitError e L s).respListeners = s.respListeners
    ∧ (emitError e L s).sent = s.sent := by
  induction L with
  | nil => intro s; exact ⟨rfl, rfl, rfl, rfl, rfl⟩
  | cons i rest ih =>
    intro s
    cases h : s.cmds.lookup i with
    | none => simpa [emitError, h] using ih s
    | some b =>
      cases b with
      | false =>
        simpa [emitError, h] using
          ih { s with cmds := setHandled s.cmds i, log := s.log ++ [(i, .errTransport e)] }
      | true => simpa [emitError, h] using ih s

theorem emitError_resolves (e : String) (L : List Nat) :
    ∀ (s : Sys) (i : Nat), i ∈ L → s.cmds.lookup i = some false →
      (i, CbResult.errTransport e) ∈ (emitError e L s).log := by
  induction L with
  | nil => intro s i h; cases h
  | cons j rest ih =>
    intro s i hmem hl
    by_cases hij : i = j
    · subst hij
      have hstep : emitError e (i :: rest) s
          = emitError e rest
              { s with cmds := setHandled s.cmds i, log := s.log ++ [(i, .errTransport e)] } := by
        simp [emitError, hl]
      rw [hstep]
      refine mem_log_of_ext (emitError_ext e rest _) ?_
      exact List.mem_append_right _ (by simp)
    · have hrest : i ∈ rest := by
        cases List.mem_cons.mp hmem with
        | inl h => exact absurd h hij
        | inr h => exact h
      cases hj : s.cmds.lookup j with
      | none =>
        have hstep : emitError e (j :: rest) s = emitError e rest s := by
          simp [emitError, hj]
        rw [hstep]; exact ih s i hrest hl
      | some b =>
        cases b with
        | false =>
          have hstep : emitError e (j :: rest) s
              = emitError e rest
                  { s with cmds := setHandled s.cmds j, log := s.log ++ [(j, .errTransport e)] } := by
            simp [emitError, hj]
          rw [hstep]
          refine ih _ i hrest ?_
          simpa using (lookup_setHandled_ne s.cmds i j hij).trans hl
        | true =>
          have hstep : emitError e (j :: rest) s = emitError e rest s := by
            simp [emitError, hj]
          rw [hstep]; exact ih s i hrest hl

/-- C5 (counterexample): a TransportError (`error` event) arriving while
the Session is Ready neither clears the authentication flag nor schedules
a Backoff Timer — the code's `error` handler only logs. -/
theorem C5_error_no_teardown_counterexample :
    (run initState [(0, .auth), (0, .rerror "boom")]).rconReady = true
    ∧ (run initState [(0, .auth), (0, .rerror "boom")]).timers = [] := by
  decide

/-- C5 (amended): on a Closed (`end`) event the authentication flag is
cleared and exactly one Backoff Timer is scheduled, but a Pending Command
is not failed (the whole state equation shows `cmds` and `log` untouched);
on a TransportError (`error`) event the session state is unchanged — the
flag keeps its value and no Backoff Timer is scheduled. -/
theorem C5_closed_clears_flag_error_does_not :
    (∀ s : Sys, handleEvent .closed s
      = { s with rconReady := false, timers := s.timers ++ [⟨s.now + 5000, .backoff⟩] })
    ∧ (∀ (s : Sys) (e : String),
        (handleEvent (.rerror e) s).rconReady = s.rconReady
        ∧ (handleEvent (.rerror e) s).timers = s.timers
        ∧ (handleEvent (.rerror e) s).connectCount = s.connectCount) := by
  constructor
  · intro s; rfl
  · intro s e
    obtain ⟨h1, h2, h3, -⟩ := emitError_preserves e s.errListeners { s with errListeners := [] }
    exact ⟨h1, h2, h3⟩

/-- C6 (counterexample): a TransportError while command 0 is outstanding
does resolve the command with the error, but the Session is not torn down
and no reconnection begins: the flag stays set and `connectRcon` is never
re-invoked. -/
theorem C6_no_teardown_counterexample :
    (run initState [(0, .auth), (0, .exec "abc" true), (0, .rerror "boom")]).log
      = [(0, .errTransport "boom")]
    ∧ (run initState [(0, .auth), (0, .exec "abc" true), (0, .rerror "boom")]).rconReady = true
    ∧ (run initState [(0, .auth), (0, .exec "abc" true), (0, .rerror "boom")]).connectCount = 1 := by
  decide

/-- C6 (amended): a TransportError (`error` event) arriving while a
command is outstanding resolves that Pending Command with the transport's
error in the same event-loop dispatch, but the Session is not torn down:
the authentication flag keeps its value, no timer is scheduled, and no new
connection attempt starts. -/
theorem C6_error_resolves_pending_without_teardown (s : Sys) (e : String) (i : Nat)
    (hmem : i ∈ s.errListeners) (hl : s.cmds.lookup i = some false) :
    (i, CbResult.errTransport e) ∈ (handleEvent (.rerror e) s).log
    ∧ (handleEvent (.rerror e) s).rconReady = s.rconReady
    ∧ (handleEvent (.rerror e) s).timers = s.timers
    ∧ (handleEvent (.rerror e) s).connectCount = s.connectCount := by
  obtain ⟨h1, h2, h3, -⟩ := emitError_preserves e s.errListeners { s with errListeners := [] }
  exact ⟨emitError_resolves e s.errListeners _ i hmem hl, h1, h2, h3⟩

theorem C6_error_resolves_pending_witness :
    0 ∈ (run initState [(0, .auth), (0, .exec "abc" true)]).errListeners
    ∧ (run initState [(0, .auth), (0, .exec "abc" true)]).cmds.lookup 0 = some false
    ∧ (0, CbResult.errTransport "boom")
        ∈ (handleEvent (.rerror "boom") (run initState [(0, .auth), (0, .exec "abc" true)])).log :=
  ⟨by decide, by decide,
   (C6_error_resolves_pending_without_teardown
      (run initState [(0, .auth), (0, .exec "abc" true)]) "boom" 0
      (by decide) (by decide)).1⟩

/-- C7: when the 5000 ms fallback timeout fires for a still-unresolved
command, only that Pending Command is cleared: its `handled` flag is set,
its listeners are removed, and its callback gets the timeout error, while
the authentication flag, the timer queue, the sent history, the connection
(`connectCount`) and everything else are unchanged — the session is not
torn down and no reconnection is triggered. -/
theorem C7_timeout_clears_only_pending (s : Sys) (i : Nat)
    (hl : s.cmds.lookup i = some false) :
    fireTimer (.cmdTimeout i) s
      = { s with cmds := setHandled s.cmds i,
                 respListeners := s.respListeners.filter (fun j => j != i),
                 errListeners := s.errListeners.filter (fun j => j != i),
                 log := s.log ++ [(i, .errTimeout)] } := by
  simp [fireTimer, hl]

theorem C7_timeout_clears_only_pending_witness :
    (run initState [(0, .auth), (0, .exec "abc" true)]).cmds.lookup 0 = some false
    ∧ fireTimer (.cmdTimeout 0) (run initState [(0, .auth), (0, .exec "abc" true)])
      = { run initState [(0, .auth), (0, .exec "abc" true)] with
            cmds := setHandled (run initState [(0, .auth), (0, .exec "abc" true)]).cmds 0,
            respListeners := (run initState
              [(0, .auth), (0, .exec "abc" true)]).respListeners.filter (fun j => j != 0),
            errListeners := (run initState
              [(0, .auth), (0, .exec "abc" true)]).errListeners.filter (fun j => j != 0),
            log := (run initState [(0, .auth), (0, .exec "abc" true)]).log
              ++ [(0, .errTimeout)] } :=
  ⟨by decide,
   C7_timeout_clears_only_pending (run initState [(0, .auth), (0, .exec "abc" true)]) 0
     (by decide)⟩

/-- Is this queued timer the reconnect (Backoff) timer? -/
def isBackoff : TimerKind → Bool
  | .backoff => true
  | .cmdTimeout _ => false

/-- C8: every Closed (`end`) event schedules exactly one Backoff Timer,
due exactly 5000 ms after the event (first two conjuncts: the queue grows
by exactly one backoff entry, so repeated Closed events never produce
duplicates); with that timer queued, advancing the loop to any instant
before its due time fires nothing, and reaching the due time fires it
exactly once, running `connectRcon` — a new connection attempt starts. -/
theorem C8_backoff_timer :
    (∀ s : Sys, (handleEvent .closed s).timers
      = s.timers ++ [⟨s.now + 5000, .backoff⟩])
    ∧ (∀ s : Sys, ((handleEvent .closed s).timers.countP (fun tm => isBackoff tm.kind))
      = s.timers.countP (fun tm => isBackoff tm.kind) + 1)
    ∧ (∀ (s : Sys) (d t : Nat), s.timers = [⟨d, .backoff⟩] → t < d →
        runTimersUpTo t s = s)
    ∧ (∀ (s : Sys) (d t : Nat), s.timers = [⟨d, .backoff⟩] → d ≤ t →
        runTimersUpTo t s
          = { s with timers := [], respListeners := [], errListeners := [],
                     connectCount := s.connectCount + 1 }) := by
  refine ⟨fun s => rfl, fun s => ?_, fun s d t hs ht => ?_, fun s d t hs ht => ?_⟩
  · simp [handleEvent, List.countP_append, isBackoff]
  · have hnd : ¬ (d ≤ t) := by omega
    show runTimersAux t s.timers s = s
    rw [hs]
    show runTimersAux t [⟨d, .backoff⟩] s = s
    unfold runTimersAux
    simp only [hnd, if_false]
    rw [← hs]
  · show runTimersAux t s.timers s = _
    rw [hs]
    show runTimersAux t [⟨d, .backoff⟩] s = _
    unfold runTimersAux
    simp only [ht, if_true]
    unfold runTimersAux
    rfl

theorem C8_backoff_timer_witness :
    (run initState [(0, .closed)]).timers = [⟨5000, .backoff⟩]
    ∧ runTimersUpTo 4999 (run initState [(0, .closed)]) = run initState [(0, .closed)]
    ∧ runTimersUpTo 5000 (run initState [(0, .closed)])
      = { run initState [(0, .closed)] with
            timers := [], respListeners := [], errListeners := [],
            connectCount := (run initState [(0, .closed)]).connectCount + 1 } :=
  ⟨by decide,
   C8_backoff_timer.2.2.1 (run initState [(0, .closed)]) 5000 4999 (by decide) (by decide),
   C8_backoff_timer.2.2.2 (run initState [(0, .closed)]) 5000 5000 (by decide) (by decide)⟩

theorem emitResponse_log_shape (m : String) (L : List Nat) :
    ∀ s : Sys, ∃ l, (emitResponse m L s).log = s.log ++ l ∧ ∀ q ∈ l, q.1 ∈ L := by
  induction L with
  | nil =>
    intro s
    exact ⟨[], by simp [emitResponse], fun q hq => absurd hq (List.not_mem_nil q)⟩
  | cons j rest ih =>
    intro s
    cases hj : s.cmds.lookup j with
    | none =>
      obtain ⟨l, hl, hk⟩ := ih s
      refine ⟨l, ?_, fun q hq => List.mem_cons_of_mem j (hk q hq)⟩
      simpa [emitResponse, hj] using hl
    | some b =>
      cases b with
      | false =>
        obtain ⟨l, hl, hk⟩ :=
          ih { s with cmds := setHandled s.cmds j, log := s.log ++ [(j, .ok m)] }
        refine ⟨(j, .ok m) :: l, ?_, ?_⟩
        · have hstep : emitResponse m (j :: rest) s
              = emitResponse m rest
                  { s with cmds := setHandled s.cmds j, log := s.log ++ [(j, .ok m)] } := by
            simp [emitResponse, hj]
          rw [hstep, hl]
          simp
        · intro q hq
          cases List.mem_cons.mp hq with
          | inl h => rw [h]; exact List.mem_cons_self j rest
          | inr h => exact List.mem_cons_of_mem j (hk q h)
      | true =>
        obtain ⟨l, hl, hk⟩ := ih s
        refine ⟨l, ?_, fun q hq => List.mem_cons_of_mem j (hk q hq)⟩
        simpa [emitResponse, hj] using hl

/-- C4: a dispatched command whose fallback timer is queued with deadline
`d` is not resolved by merely advancing the loop to any instant before `d`
(first conjunct); once the loop reaches `d`, the command resolves with the
timeout error, and a Message arriving afterwards is not delivered to that
command's handler — its complete resolution history is the single timeout
entry (second conjunct); and the deadline a `sendGamemode` call arms is
exactly 5000 ms after the send (third conjunct). -/
theorem C4_timeout_and_late_response (s : Sys) (i d tl tr : Nat) (m : String)
    (hcmd : s.cmds.lookup i = some false)
    (htm : s.timers = [⟨d, .cmdTimeout i⟩])
    (hpend : isPending s i = true)
    (hlt : tl < d) (hge : d ≤ tr) :
    runTimersUpTo tl s = s
    ∧ ((step s (tr, .response m)).log.filter (fun q => q.1 == i)) = [(i, .errTimeout)]
    ∧ (∀ (s0 : Sys) (u : String), s0.rconReady = true →
        (sendGamemode u true s0).timers
          = s0.timers ++ [⟨s0.now + 5000, .cmdTimeout s0.nextId⟩]) := by
  refine ⟨?_, ?_, ?_⟩
  · have hnd : ¬ (d ≤ tl) := by omega
    show runTimersAux tl s.timers s = s
    rw [htm]
    show runTimersAux tl [⟨d, .cmdTimeout i⟩] s = s
    unfold runTimersAux
    simp only [hnd, if_false]
    rw [← htm]
  · set s' : Sys := { s with now := tr } with hs'
    have hcmd' : s'.cmds.lookup i = some false := hcmd
    have hfire : fireTimer (.cmdTimeout i) s'
        = { s' with cmds := setHandled s'.cmds i,
                    respListeners := s'.respListeners.filter (fun j => j != i),
                    errListeners := s'.errListeners.filter (fun j => j != i),
                    log := s'.log ++ [(i, .errTimeout)] } := by
      simp [fireTimer, hcmd']
    have hrun : runTimersUpTo tr s' = { fireTimer (.cmdTimeout i) s' with timers := [] } := by
      show runTimersAux tr s'.timers s' = _
      have ht' : s'.timers = [⟨d, .cmdTimeout i⟩] := htm
      rw [ht']
      unfold runTimersAux
      simp only [hge, if_true]
      unfold runTimersAux
      rfl
    have hstep : step s (tr, .response m)
        = emitResponse m
            (s.respListeners.filter (fun j => j != i))
            { fireTimer (.cmdTimeout i) s' with timers := [], respListeners := [] } := by
      show handleEvent (.response m) (runTimersUpTo tr s') = _
      rw [hrun, hfire]
      rfl
    obtain ⟨l, hl, hk⟩ :=
      emitResponse_log_shape m (s.respListeners.filter (fun j => j != i))
        { fireTimer (.cmdTimeout i) s' with timers := [], respListeners := [] }
    have hbase : ({ fireTimer (.cmdTimeout i) s' with
        timers := ([] : List Timer), respListeners := ([] : List Nat) }).log
        = s.log ++ [(i, .errTimeout)] := by
      rw [hfire]
    rw [hstep, hl, hbase]
    have h1 : s.log.filter (fun q => q.1 == i) = [] := by
      have hany : s.log.any (fun q => q.1 == i) = false := by
        have h0 := hpend
        simp only [isPending, Bool.not_eq_true'] at h0
        exact h0
      exact List.filter_eq_nil_iff.mpr (List.any_eq_false.mp hany)
    have h2 : l.filter (fun q => q.1 == i) = [] := by
      refine List.filter_eq_nil_iff.mpr ?_
      intro q hq
      have hmem := hk q hq
      have hne : (q.1 != i) = true := (List.mem_filter.mp hmem).2
      simp only [bne_iff_ne, ne_eq] at hne
      simp [hne]
    rw [List.append_assoc, List.filter_append, List.filter_append, h1, h2]
    simp
  · intro s0 u hr
    simp [sendGamemode, hr]

theorem C4_timeout_and_late_response_witness :
    (run initState [(0, .auth), (0, .exec "abc" true)]).timers = [⟨5000, .cmdTimeout 0⟩]
    ∧ runTimersUpTo 4999 (run initState [(0, .auth), (0, .exec "abc" true)])
        = run initState [(0, .auth), (0, .exec "abc" true)]
    ∧ ((step (run initState [(0, .auth), (0, .exec "abc" true)])
          (6000, .response "late")).log.filter (fun q => q.1 == 0))
        = [(0, .errTimeout)] := by
  have h := C4_timeout_and_late_response
    (run initState [(0, .auth), (0, .exec "abc" true)]) 0 5000 4999 6000 "late"
    (by decide) (by decide) (by decide) (by decide) (by decide)
  exact ⟨by decide, h.1, h.2.1⟩

/-- C9: when the transport replies to a sent command (one command in
flight, its listener registered) with a Message carrying text `m`, the
command's callback receives exactly `m`, unmodified. -/
theorem C9_response_text_unmodified (s : Sys) (i : Nat) (m : String)
    (hL : s.respListeners = [i]) (hcmd : s.cmds.lookup i = some false) :
    (handleEvent (.response m) s).log = s.log ++ [(i, CbResult.ok m)] := by
  show (emitResponse m s.respListeners { s with respListeners := [] }).log = _
  rw [hL]
  have hc : ({ s with respListeners := ([] : List Nat) }).cmds.lookup i = some false := hcmd
  simp [emitResponse, hc]

theorem C9_response_text_unmodified_witness :
    (run initState [(0, .auth), (0, .exec "echo" true)]).sent
      = ["gamemode survival echo"]
    ∧ (run initState [(0, .auth), (0, .exec "echo" true)]).respListeners = [0]
    ∧ (handleEvent (.response "gamemode survival echo")
        (run initState [(0, .auth), (0, .exec "echo" true)])).log
      = (run initState [(0, .auth), (0, .exec "echo" true)]).log
        ++ [(0, CbResult.ok "gamemode survival echo")] :=
  ⟨by decide, by decide,
   C9_response_text_unmodified (run initState [(0, .auth), (0, .exec "echo" true)]) 0
     "gamemode survival echo" (by decide) (by decide)⟩

/-- C10: whenever the `POST /set` handler reaches the RCON send, the
username it passes is the trimmed submission and matched
`^[A-Za-z0-9_]{3,16}$` — every character is an ASCII letter, digit or
underscore, so no user-supplied space, separator or control character can
appear — and the string actually transmitted is exactly
`"gamemode survival " ++ username`. -/
theorem C10_sanitized_command (authPw : String) (ready : Bool) (rawUser pw u : String)
    (h : handleSetRequest authPw ready rawUser pw = .send u) :
    validUsername u = true
    ∧ (∀ c ∈ u.data, isNameChar c = true)
    ∧ 3 ≤ u.length ∧ u.length ≤ 16
    ∧ (∀ s : Sys, s.rconReady = true →
        (sendGamemode u true s).sent = s.sent ++ ["gamemode survival " ++ u]) := by
  simp only [handleSetRequest] at h
  by_cases h1 : authPw = ""
  · simp [h1] at h
  · simp only [h1, if_false] at h
    by_cases h2 : pw ≠ authPw
    · simp [h2] at h
    · simp only [h2, if_false] at h
      by_cases h3 : ¬ (validUsername (jsTrim rawUser) = true)
      · simp [h3] at h
      · simp only [h3, if_false] at h
        by_cases h4 : ready = false
        · simp [h4] at h
        · simp only [h4, if_false] at h
          have hu : jsTrim rawUser = u := by
            injection h
          rw [hu] at h3
          have hv : validUsername u = true := not_not.mp h3
          have hparts := hv
          simp only [validUsername, Bool.and_eq_true, decide_eq_true_eq,
            List.all_eq_true] at hparts
          obtain ⟨⟨hlen3, hlen16⟩, hall⟩ := hparts
          refine ⟨hv, hall, hlen3, hlen16, ?_⟩
          intro s hr
          simp [sendGamemode, hr]

theorem C10_sanitized_command_witness :
    handleSetRequest "pw123" true " steve " "pw123" = .send "steve"
    ∧ validUsername "steve" = true
    ∧ (∀ s : Sys, s.rconReady = true →
        (sendGamemode "steve" true s).sent
          = s.sent ++ ["gamemode survival " ++ "steve"]) := by
  have h := C10_sanitized_command "pw123" true " steve " "pw123" "steve" (by decide)
  exact ⟨by decide, h.1, h.2.2.2.2⟩
